import Mathlib

/-!
Verification of the `small_matrix` crate (`src/matrix.rs`) against its
natural-language specification.

The crate provides `Matrix<const M: usize, const N: usize>` holding a dense
row-major array `[[f32; N]; M]`.  We embed the body as a total function
`Fin M → Fin N → ℚ`: a Rust fixed-size array of arrays is exactly a total map
from in-range indices to entries.  Entries are modelled as rationals,
idealizing `f32` arithmetic by exact arithmetic, which is the reading under
which the specification states its exact algebraic laws.

Fallible operations (`get` returning `Option<f32>`, the panicking
`swap_rows`) are embedded with `Option`, `none` standing for the absent value
respectively the index-out-of-range panic.
-/

namespace SmallMatrix

/-- Embedding of `struct Matrix<const M: usize, const N: usize> { body: [[f32; N]; M] }`
(src/matrix.rs lines 71-74).  The derived `PartialEq` of the source compares
bodies entrywise; structure equality here coincides with that. -/
structure Matrix (M N : ℕ) where
  body : Fin M → Fin N → ℚ
  deriving DecidableEq

/-- Embedding of `Matrix::new` (src/matrix.rs lines 89-91):
`pub fn new(body: [[f32; N]; M]) -> Self { Self { body } }`.
It is infallible and wraps the supplied entries unchanged. -/
def Matrix.new {M N : ℕ} (body : Fin M → Fin N → ℚ) : Matrix M N :=
  ⟨body⟩

/-- Embedding of `Matrix::zeros` (src/matrix.rs lines 102-106):
`Self { body: [[0.0; N]; M] }`. -/
def Matrix.zeros {M N : ℕ} : Matrix M N :=
  ⟨fun _ _ => 0⟩

/-- Embedding of `Matrix::fill` (src/matrix.rs lines 117-121):
`Self { body: [[n; N]; M] }`. -/
def Matrix.fill {M N : ℕ} (n : ℚ) : Matrix M N :=
  ⟨fun _ _ => n⟩

/-- Embedding of `Matrix::size` (src/matrix.rs lines 133-135): returns `(M, N)`. -/
def Matrix.size {M N : ℕ} (_A : Matrix M N) : ℕ × ℕ :=
  (M, N)

/-- Embedding of `Matrix::get` (src/matrix.rs lines 152-158):
`if pos.0 < M && pos.1 < N { Some(self.body[pos.0][pos.1]) } else { None }`. -/
def Matrix.get {M N : ℕ} (A : Matrix M N) (pos : ℕ × ℕ) : Option ℚ :=
  if h : pos.1 < M ∧ pos.2 < N then some (A.body ⟨pos.1, h.1⟩ ⟨pos.2, h.2⟩)
  else none

/-- Embedding of `Matrix::transpose` (src/matrix.rs lines 177-185): output
entry at `(c, r)` is `self.get((r, c)).unwrap()`.  The `unwrap` can never
panic there (both indices are in range); we embed it as `Option.getD _ 0`
and prove below (`Matrix.get_val`) that the default is never used. -/
def Matrix.transpose {M N : ℕ} (A : Matrix M N) : Matrix N M :=
  ⟨fun c r => (A.get (r.val, c.val)).getD 0⟩

/-- Embedding of `Matrix::swap_rows` (src/matrix.rs lines 206-208):
`self.body.swap(idx_1, idx_2)`.  `slice::swap` panics when either index is
out of range; the panic is embedded as `none`, and the mutated receiver as
the `some` result. -/
def Matrix.swap_rows {M N : ℕ} (A : Matrix M N) (idx_1 idx_2 : ℕ) :
    Option (Matrix M N) :=
  if h : idx_1 < M ∧ idx_2 < M then
    some ⟨fun r c =>
      if r.val = idx_1 then A.body ⟨idx_2, h.2⟩ c
      else if r.val = idx_2 then A.body ⟨idx_1, h.1⟩ c
      else A.body r c⟩
  else none

/-- Embedding of the macro-generated `impl Add for Matrix<M, N>`
(src/matrix.rs lines 235-253): the zipped iteration writes
`result[i][j] = self[i][j] + other[i][j]` for every position. -/
def Matrix.add {M N : ℕ} (A B : Matrix M N) : Matrix M N :=
  ⟨fun i j => A.body i j + B.body i j⟩

/-- Embedding of the macro-generated `impl Sub for Matrix<M, N>`
(src/matrix.rs lines 235-254): entrywise subtraction. -/
def Matrix.sub {M N : ℕ} (A B : Matrix M N) : Matrix M N :=
  ⟨fun i j => A.body i j - B.body i j⟩

/-- Embedding of `impl Mul<Matrix<L, N>> for Matrix<M, L>`
(src/matrix.rs lines 256-272).  The source transposes `other` first, then
entry `(i, j)` is the left fold `rs.iter().zip(ro).fold(0.0, |acc, (s, o)| acc + s * o)`
of row `i` of `self` with row `j` of the transpose: the fold over the zip of
two rows of length `L` is the ordered fold over `k < L`. -/
def Matrix.mul {M L N : ℕ} (A : Matrix M L) (B : Matrix L N) : Matrix M N :=
  let other_t := B.transpose
  ⟨fun i j => (List.finRange L).foldl (fun acc k => acc + A.body i k * other_t.body j k) 0⟩

/-- Embedding of the constant `I_2` (src/matrix.rs lines 8-13). -/
def I_2 : Matrix 2 2 :=
  ⟨![![1, 0], ![0, 1]]⟩

/-- Embedding of the constant `I_3` (src/matrix.rs lines 16-22). -/
def I_3 : Matrix 3 3 :=
  ⟨![![1, 0, 0], ![0, 1, 0], ![0, 0, 1]]⟩

/-- Embedding of the constant `I_4` (src/matrix.rs lines 25-32). -/
def I_4 : Matrix 4 4 :=
  ⟨![![1, 0, 0, 0], ![0, 1, 0, 0], ![0, 0, 1, 0], ![0, 0, 0, 1]]⟩

/-- Modelled from the spec: the error type `MatrixError` with its single
variant `EmptyDimension`.  No such type exists anywhere in src/; it is
introduced only to state the construction contract the spec describes. -/
inductive MatrixError where
  | EmptyDimension
  deriving DecidableEq

/-- Modelled from the spec: the validating constructor the spec attributes
to `new` — `Result<Matrix, MatrixError>`, failing with `EmptyDimension` when
either extent is zero and otherwise wrapping the entries unchanged.  It is
stated here only to be compared with the source `Matrix.new`, which is
infallible. -/
def Matrix.newSpec (M N : ℕ) (body : Fin M → Fin N → ℚ) :
    Except MatrixError (Matrix M N) :=
  if M = 0 ∨ N = 0 then Except.error MatrixError.EmptyDimension
  else Except.ok ⟨body⟩

theorem Matrix.get_val {M N : ℕ} (A : Matrix M N) (r : Fin M) (c : Fin N) :
    A.get (r.val, c.val) = some (A.body r c) := by
  have h : r.val < M ∧ c.val < N := ⟨r.isLt, c.isLt⟩
  simp [Matrix.get, h]

theorem Matrix.transpose_body {M N : ℕ} (A : Matrix M N) (c : Fin N) (r : Fin M) :
    A.transpose.body c r = A.body r c := by
  simp [Matrix.transpose, Matrix.get_val]

theorem Matrix.ext_body {M N : ℕ} {A B : Matrix M N}
    (h : ∀ i j, A.body i j = B.body i j) : A = B := by
  cases A
  cases B
  simp only [Matrix.mk.injEq]
  funext i j
  exact h i j

theorem foldl_add_eq_sum_aux {α : Type} (f : α → ℚ) (l : List α) (a : ℚ) :
    l.foldl (fun acc x => acc + f x) a = a + (l.map f).sum := by
  induction l generalizing a with
  | nil => simp
  | cons x xs ih =>
    rw [List.foldl_cons, ih, List.map_cons, List.sum_cons]
    ring

theorem Matrix.mul_body_eq_foldl {M L N : ℕ} (A : Matrix M L) (B : Matrix L N)
    (i : Fin M) (j : Fin N) :
    (A.mul B).body i j
      = (List.finRange L).foldl (fun acc k => acc + A.body i k * B.body k j) 0 := by
  show (List.finRange L).foldl (fun acc k => acc + A.body i k * B.transpose.body j k) 0
      = (List.finRange L).foldl (fun acc k => acc + A.body i k * B.body k j) 0
  have h : (fun (acc : ℚ) (k : Fin L) => acc + A.body i k * B.transpose.body j k)
      = fun acc k => acc + A.body i k * B.body k j := by
    funext acc k
    rw [Matrix.transpose_body]
  rw [h]

theorem Matrix.mul_body_eq_sum {M L N : ℕ} (A : Matrix M L) (B : Matrix L N)
    (i : Fin M) (j : Fin N) :
    (A.mul B).body i j = ∑ k, A.body i k * B.body k j := by
  rw [Matrix.mul_body_eq_foldl, foldl_add_eq_sum_aux, zero_add, Fin.sum_univ_def]

theorem Matrix.mul_of_diag {n : ℕ} (A Id : Matrix n n)
    (h : ∀ i j, Id.body i j = if i = j then (1 : ℚ) else 0) :
    A.mul Id = A ∧ Id.mul A = A := by
  constructor
  · apply Matrix.ext_body
    intro i j
    rw [Matrix.mul_body_eq_sum]
    simp [h, mul_ite, mul_one, mul_zero, Finset.sum_ite_eq, Finset.sum_ite_eq']
  · apply Matrix.ext_body
    intro i j
    rw [Matrix.mul_body_eq_sum]
    simp [h, ite_mul, one_mul, zero_mul, Finset.sum_ite_eq, Finset.sum_ite_eq']

theorem I_2_body (i j : Fin 2) : I_2.body i j = if i = j then (1 : ℚ) else 0 := by
  fin_cases i <;> fin_cases j <;> simp [I_2, Matrix.vecHead, Matrix.vecTail]

theorem I_3_body (i j : Fin 3) : I_3.body i j = if i = j then (1 : ℚ) else 0 := by
  fin_cases i <;> fin_cases j <;> simp [I_3, Matrix.vecHead, Matrix.vecTail]

theorem I_4_body (i j : Fin 4) : I_4.body i j = if i = j then (1 : ℚ) else 0 := by
  fin_cases i <;> fin_cases j <;> simp [I_4, Matrix.vecHead, Matrix.vecTail]

/-- A concrete sample matrix used by witnesses, `Matrix::new([[1.0, 2.0], [3.0, 4.0]])`. -/
def mat2 : Matrix 2 2 :=
  Matrix.new ![![1, 2], ![3, 4]]

/-- Claim C1 (counterexample): the claim says `Matrix::new` returns a result
type that fails with `EmptyDimension` when either extent is zero.  In the
source, `new` (src/matrix.rs lines 89-91) is infallible: at the zero-extent
input `M = 0, N = 1` the spec-mandated constructor `newSpec` errors while the
source `new` succeeds, wrapping the (empty) entries unchanged. -/
theorem claim_C1_counterexample :
    Matrix.newSpec 0 1 ![] = Except.error MatrixError.EmptyDimension ∧
    @Matrix.new 0 1 ![] = Matrix.mk ![] :=
  ⟨rfl, rfl⟩

/-- Claim C1 (amended): `Matrix::new` is infallible for every pair of
extents, including zero ones; it always succeeds, producing the Matrix whose
entries are exactly the supplied entries, unchanged.  No validation happens
and no error type exists in the source. -/
theorem claim_C1_amended (M N : ℕ) (body : Fin M → Fin N → ℚ) :
    (Matrix.new body).body = body ∧ (Matrix.new body).size = (M, N) :=
  ⟨rfl, rfl⟩

/-- Claim C2 (counterexample): the claim says every constructible Matrix has
Rows ≥ 1 and Cols ≥ 1.  The constructor `Matrix::<0, 3>::zeros()` is a
construction path producing a Matrix with a zero row extent. -/
theorem claim_C2_counterexample :
    ¬ (1 ≤ (@Matrix.zeros 0 3).size.1 ∧ 1 ≤ (@Matrix.zeros 0 3).size.2) := by
  decide

/-- Claim C2 (amended): every constructor (`new`, `zeros`, `fill`) produces a
Matrix whose extents are exactly the type-level parameters `M, N`, for every
`M, N` including zero; no `Rows ≥ 1 and Cols ≥ 1` invariant is enforced by
any construction path. -/
theorem claim_C2_amended (M N : ℕ) (b : Fin M → Fin N → ℚ) (n : ℚ) :
    (Matrix.new b).size = (M, N) ∧ (@Matrix.zeros M N).size = (M, N) ∧
    (@Matrix.fill M N n).size = (M, N) :=
  ⟨rfl, rfl, rfl⟩

/-- Claim C3: multiplication of an `M×L` by an `L×N` matrix yields an `M×N`
matrix whose entry `(i, j)` is the ordered sum over `k < L` of
`left[i][k] * right[k][j]`; the implementation transposing of the right
operand does not change this (the fold is stated over the untransposed
right operand, and equals the standard `Finset` sum); and the concrete
example `[[1,2],[3,4]] * [[1,2],[3,4]] = [[7,10],[15,22]]` holds. -/
theorem claim_C3 :
    (∀ (M L N : ℕ) (A : Matrix M L) (B : Matrix L N) (i : Fin M) (j : Fin N),
      (A.mul B).size = (M, N) ∧
      (A.mul B).body i j
        = (List.finRange L).foldl (fun acc k => acc + A.body i k * B.body k j) 0 ∧
      (A.mul B).body i j = ∑ k, A.body i k * B.body k j) ∧
    Matrix.mul (Matrix.new ![![1, 2], ![3, 4]]) (Matrix.new ![![1, 2], ![3, 4]])
      = Matrix.new ![![7, 10], ![15, 22]] := by
  constructor
  · intro M L N A B i j
    exact ⟨rfl, Matrix.mul_body_eq_foldl A B i j, Matrix.mul_body_eq_sum A B i j⟩
  · apply Matrix.ext_body
    intro i j
    fin_cases i <;> fin_cases j <;>
      simp [Matrix.mul_body_eq_sum, Matrix.new, Fin.sum_univ_two] <;> norm_num

/-- Claim C4: `get((row, col))` returns `Some` of the stored entry for every
in-bounds index pair and `None` (an explicit absent-value result, no panic)
for every out-of-bounds index pair. -/
theorem claim_C4 (M N : ℕ) (A : Matrix M N) (r c : ℕ) :
    (∀ (hr : r < M) (hc : c < N), A.get (r, c) = some (A.body ⟨r, hr⟩ ⟨c, hc⟩)) ∧
    (¬ (r < M ∧ c < N) → A.get (r, c) = none) := by
  constructor
  · intro hr hc
    simp [Matrix.get, hr, hc]
  · intro h
    rw [Matrix.get, dif_neg h]

/-- Claim C4 (witness): on `[[1,2],[3,4]]`, `get((0, 1))` is `some 2` and the
out-of-bounds `get((5, 0))` is `none`. -/
theorem claim_C4_witness :
    mat2.get (0, 1) = some 2 ∧ mat2.get (5, 0) = none := by
  constructor
  · have h := (claim_C4 2 2 mat2 0 1).1 (by decide) (by decide)
    simpa [mat2, Matrix.new] using h
  · exact (claim_C4 2 2 mat2 5 0).2 (by decide)

/-- Claim C5: for every square matrix `A` of order 2, 3 or 4 and the
corresponding identity constant, `A * I_n = I_n * A = A`. -/
theorem claim_C5 :
    (∀ A : Matrix 2 2, A.mul I_2 = I_2.mul A ∧ A.mul I_2 = A) ∧
    (∀ A : Matrix 3 3, A.mul I_3 = I_3.mul A ∧ A.mul I_3 = A) ∧
    (∀ A : Matrix 4 4, A.mul I_4 = I_4.mul A ∧ A.mul I_4 = A) := by
  refine ⟨fun A => ?_, fun A => ?_, fun A => ?_⟩
  · obtain ⟨h1, h2⟩ := Matrix.mul_of_diag A I_2 I_2_body
    exact ⟨h1.trans h2.symm, h1⟩
  · obtain ⟨h1, h2⟩ := Matrix.mul_of_diag A I_3 I_3_body
    exact ⟨h1.trans h2.symm, h1⟩
  · obtain ⟨h1, h2⟩ := Matrix.mul_of_diag A I_4 I_4_body
    exact ⟨h1.trans h2.symm, h1⟩

/-- Claim C6: `transpose()` returns a matrix of swapped extents whose entry
`(c, r)` is the input entry `(r, c)` for every valid pair; the receiver is
untouched (the embedding is pure, the source takes `&self` and builds a new
body). -/
theorem claim_C6 (M N : ℕ) (A : Matrix M N) :
    A.transpose.size = (N, M) ∧
    ∀ (r : Fin M) (c : Fin N), A.transpose.body c r = A.body r c :=
  ⟨rfl, fun r c => Matrix.transpose_body A c r⟩

/-- Claim C7: transpose is an involution. -/
theorem claim_C7 (M N : ℕ) (A : Matrix M N) : A.transpose.transpose = A := by
  apply Matrix.ext_body
  intro i j
  rw [Matrix.transpose_body, Matrix.transpose_body]

/-- Claim C8: addition and subtraction are mutual inverses on equal-extent
matrices (entries idealized as exact rationals). -/
theorem claim_C8 (M N : ℕ) (A B : Matrix M N) : (A.add B).sub B = A := by
  apply Matrix.ext_body
  intro i j
  simp [Matrix.add, Matrix.sub]

/-- Claim C9: for in-range indices `i, j < Rows`, `swap_rows(i, j)` succeeds
and exchanges rows `i` and `j`, keeping every other row, the entries within
rows, and the extents unchanged; for any out-of-range index the call is the
fatal index-out-of-range panic (embedded as `none`), not a recoverable
error. -/
theorem claim_C9 (M N : ℕ) (A : Matrix M N) (i j : ℕ) :
    (∀ (hi : i < M) (hj : j < M), ∃ B : Matrix M N,
      A.swap_rows i j = some B ∧ B.size = A.size ∧
      (∀ c, B.body ⟨i, hi⟩ c = A.body ⟨j, hj⟩ c) ∧
      (∀ c, B.body ⟨j, hj⟩ c = A.body ⟨i, hi⟩ c) ∧
      (∀ (r : Fin M) (c : Fin N), r.val ≠ i → r.val ≠ j → B.body r c = A.body r c)) ∧
    (¬ (i < M ∧ j < M) → A.swap_rows i j = none) := by
  constructor
  · intro hi hj
    have hij : i < M ∧ j < M := ⟨hi, hj⟩
    refine ⟨⟨fun r c => if r.val = i then A.body ⟨j, hij.2⟩ c
        else if r.val = j then A.body ⟨i, hij.1⟩ c else A.body r c⟩,
      by rw [Matrix.swap_rows, dif_pos hij], rfl, ?_, ?_, ?_⟩
    · intro c
      simp
    · intro c
      by_cases h : j = i
      · simp [h]
      · simp [h]
    · intro r c hri hrj
      simp [hri, hrj]
  · intro h
    rw [Matrix.swap_rows, dif_neg h]

/-- Claim C9 (witness): on `[[1,2],[3,4]]`, `swap_rows(0, 1)` succeeds and
exchanges the two rows, and `swap_rows(0, 5)` is the out-of-range panic. -/
theorem claim_C9_witness :
    (∃ B : Matrix 2 2, mat2.swap_rows 0 1 = some B ∧ B.size = mat2.size ∧
      (∀ c, B.body 0 c = mat2.body 1 c) ∧
      (∀ c, B.body 1 c = mat2.body 0 c) ∧
      (∀ (r : Fin 2) (c : Fin 2), r.val ≠ 0 → r.val ≠ 1 → B.body r c = mat2.body r c)) ∧
    mat2.swap_rows 0 5 = none :=
  ⟨(claim_C9 2 2 mat2 0 1).1 (by decide) (by decide),
   (claim_C9 2 2 mat2 0 5).2 (by decide)⟩

/-- Claim C10: the all-zeros matrix is an additive identity for `Add` and a
right identity for `Sub` (entries idealized as exact rationals). -/
theorem claim_C10 (M N : ℕ) (A : Matrix M N) :
    A.add Matrix.zeros = A ∧ A.sub Matrix.zeros = A := by
  constructor <;>
    · apply Matrix.ext_body
      intro i j
      simp [Matrix.add, Matrix.sub, Matrix.zeros]

end SmallMatrix
